import Mathlib

/-!
Verification development for the humidifier_mqtt firmware (two variants:
src/src/main.cpp, the humidifier controller, and
src/button_simulator_mqtt/src/main.cpp, the button simulator).

Modelling conventions:
* C float values are modelled as rationals; a float that may be NaN is
  modelled as an `Option ℚ` with `none` standing for NaN (the source tests
  NaN only via `isnan`, never orders against it on the paths modelled here).
* The result of `parseFloat` on a payload string is modelled as
  `Option (Option ℚ)`: `none` when parsing fails (strtof consumed nothing),
  `some none` when the payload parses to NaN (e.g. the string "nan"),
  `some (some v)` for a finite value `v`.
* The result of `parseBool` is modelled as `Option Bool`: `none` when the
  payload matches none of the recognised tokens, in which case the source
  returns the supplied default.
* `millis()` timestamps are `ℕ`; the uint32 subtractions `now - earlier`
  of the source are modelled by truncated `ℕ` subtraction, which agrees
  with the source for the monotone, non-wrapping runs quantified here.
* The sample counter `humiditySamplesSinceMqttConnect` (uint8_t) is a `ℕ`
  saturated at 255 exactly as in the source.
-/

namespace Humidifier

/-- MQTT_RECONNECT_MIN_MS from the source. -/
def MQTT_RECONNECT_MIN_MS : ℕ := 1000

/-- MQTT_RECONNECT_MAX_MS from the source. -/
def MQTT_RECONNECT_MAX_MS : ℕ := 30000

/-- SETPOINT_MIN from the source. -/
def SETPOINT_MIN : ℚ := 10

/-- SETPOINT_MAX from the source. -/
def SETPOINT_MAX : ℚ := 80

/-- DEFAULT_HUMIDITY_MIN_INTERVAL_MS from the source (5 minutes). -/
def DEFAULT_HUMIDITY_MIN_INTERVAL_MS : ℕ := 5 * 60 * 1000

/-- The mutable globals of src/src/main.cpp that participate in the control
subsystem.  `mqttConnected` models `mqtt.connected()`, `mqttHostConfigured`
models `strlen(config.mqttHost) > 0`.  The hysteresis is kept as a plain
rational: the web form stores whatever `parseFloat` yields, and this model
covers every finite stored value (a literal NaN hysteresis payload is outside
the model; it would violate the threshold ordering even more directly). -/
structure HumState where
  mqttConnected : Bool
  mqttHostConfigured : Bool
  systemEnabled : Bool
  relayOn : Bool
  targetHumidity : ℚ
  hysteresis : ℚ
  currentHumidity : Option ℚ
  lastHumidityAcceptMs : ℕ
  lastHumiditySeenMs : ℕ
  humiditySamplesSinceMqttConnect : ℕ
  humidityMinIntervalMs : ℕ
  lastMqttAttemptMs : ℕ
  mqttBackoffMs : ℕ
  deriving Repr, DecidableEq

/-- clampSetpoint from the source: NaN is returned unchanged, finite values
are clamped into [SETPOINT_MIN, SETPOINT_MAX]. -/
def clampSetpoint (v : Option ℚ) : Option ℚ :=
  match v with
  | none => none
  | some x =>
      if x < SETPOINT_MIN then some SETPOINT_MIN
      else if x > SETPOINT_MAX then some SETPOINT_MAX
      else some x

/-- The low threshold computed in controlLoopTick / automationReason:
`targetHumidity - config.hysteresis`. -/
def lowThreshold (s : HumState) : ℚ := s.targetHumidity - s.hysteresis

/-- The high threshold computed in controlLoopTick / automationReason:
`targetHumidity + config.hysteresis`. -/
def highThreshold (s : HumState) : ℚ := s.targetHumidity + s.hysteresis

/-- The enabled-topic branch of mqttCallback.  `p` is the parseBool result;
parseBool falls back to the current `systemEnabled` when the payload is
unrecognised.  Persistence (`saveRuntimeState`) and publishing are external
side effects with no control state. -/
def applyEnable (s : HumState) (p : Option Bool) : HumState :=
  let newEnabled := p.getD s.systemEnabled
  if newEnabled ≠ s.systemEnabled then
    let s1 := { s with systemEnabled := newEnabled }
    if ¬newEnabled then { s1 with relayOn := false } else s1
  else if ¬newEnabled then { s with relayOn := false } else s

/-- The setpoint-topic branch of mqttCallback: on parseFloat success the value
is clamped; a NaN result is not stored. -/
def applySetpoint (s : HumState) (p : Option (Option ℚ)) : HumState :=
  match p with
  | none => s
  | some v =>
      match clampSetpoint v with
      | none => s
      | some q =>
          if q ≠ s.targetHumidity then { s with targetHumidity := q } else s

/-- The humidity-topic branch of mqttCallback.  The sample counter is
incremented for every received message (the source comment: "Always count
received messages as valid samples"), before throttling and before parsing.
A throttled message only refreshes `lastHumiditySeenMs`; an accepted parse
stores the value (NaN included) and stamps both timestamps. -/
def applyHumidity (s : HumState) (p : Option (Option ℚ)) (now : ℕ) : HumState :=
  let s1 := { s with humiditySamplesSinceMqttConnect :=
      if s.humiditySamplesSinceMqttConnect < 255 then
        s.humiditySamplesSinceMqttConnect + 1
      else s.humiditySamplesSinceMqttConnect }
  if s1.humidityMinIntervalMs > 0 ∧ s1.lastHumidityAcceptMs > 0 ∧
      now - s1.lastHumidityAcceptMs < s1.humidityMinIntervalMs then
    { s1 with lastHumiditySeenMs := now }
  else
    match p with
    | none => s1
    | some v =>
        { s1 with currentHumidity := v, lastHumidityAcceptMs := now,
                  lastHumiditySeenMs := now }

/-- mqttConnectIfNeeded from the source.  `ok` is the outcome of
`mqtt.connect(...)`, an environment input.  On failure the backoff doubles up
to MQTT_RECONNECT_MAX_MS; on success the backoff resets to
MQTT_RECONNECT_MIN_MS and the freshness counter is zeroed. -/
def mqttConnectIfNeeded (s : HumState) (now : ℕ) (ok : Bool) : HumState :=
  if s.mqttConnected then s
  else if ¬s.mqttHostConfigured then s
  else if now - s.lastMqttAttemptMs < s.mqttBackoffMs then s
  else
    let s1 := { s with lastMqttAttemptMs := now }
    if ¬ok then
      let next := s1.mqttBackoffMs * 2
      let next2 := if next > MQTT_RECONNECT_MAX_MS then MQTT_RECONNECT_MAX_MS else next
      { s1 with mqttBackoffMs := next2 }
    else
      { s1 with mqttBackoffMs := MQTT_RECONNECT_MIN_MS,
                humiditySamplesSinceMqttConnect := 0,
                mqttConnected := true }

/-- controlLoopTick from the source: fail-safe OFF when disconnected,
disabled, or the humidity is unknown; otherwise the hysteresis law, with the
OFF to ON direction gated by `humiditySamplesSinceMqttConnect >= 2`. -/
def controlLoopTick (s : HumState) : HumState :=
  if ¬s.mqttConnected then
    if s.relayOn then { s with relayOn := false } else s
  else if ¬s.systemEnabled then
    if s.relayOn then { s with relayOn := false } else s
  else
    match s.currentHumidity with
    | none => if s.relayOn then { s with relayOn := false } else s
    | some hum =>
        if ¬s.relayOn ∧ hum < lowThreshold s then
          if s.humiditySamplesSinceMqttConnect < 2 then s
          else { s with relayOn := true }
        else if s.relayOn ∧ hum > highThreshold s then
          { s with relayOn := false }
        else s

/-- The /control web handler: enable flag (parseBool defaulting to the current
value; disabling forces the relay OFF), then the setpoint (parseFloat, NaN
rejected, clamped, NaN re-checked, stored when different). -/
def webControl (s : HumState) (en : Option Bool) (sp : Option (Option ℚ)) : HumState :=
  let newEnabled := en.getD s.systemEnabled
  let s1 := if newEnabled ≠ s.systemEnabled then { s with systemEnabled := newEnabled } else s
  let s2 := if ¬s1.systemEnabled then { s1 with relayOn := false } else s1
  match sp with
  | none => s2
  | some none => s2
  | some (some v) =>
      match clampSetpoint (some v) with
      | none => s2
      | some q =>
          if q ≠ s2.targetHumidity then { s2 with targetHumidity := q } else s2

/-- The hysteresis update of the /save web handler:
`if (parseFloat(hyst, hystF)) config.hysteresis = hystF;` - stored without
any range validation.  (The NaN-payload case is outside this model; see
`HumState`.) -/
def webSaveHysteresis (s : HumState) (p : Option ℚ) : HumState :=
  match p with
  | none => s
  | some q => { s with hysteresis := q }

/-- The wifi-drop edge handling in loop(): the held humidity reverts to NaN,
timestamps and the freshness counter are zeroed, and the relay is forced OFF.
Losing the wifi link also tears down the TCP session under the MQTT client,
so `mqttConnected` becomes false. -/
def wifiDropCleanup (s : HumState) : HumState :=
  { s with mqttConnected := false, currentHumidity := none,
           lastHumidityAcceptMs := 0, lastHumiditySeenMs := 0,
           humiditySamplesSinceMqttConnect := 0, relayOn := false }

/-- The MQTT-drop edge handling in loop(): identical cleanup. -/
def mqttDropCleanup (s : HumState) : HumState :=
  { s with mqttConnected := false, currentHumidity := none,
           lastHumidityAcceptMs := 0, lastHumiditySeenMs := 0,
           humiditySamplesSinceMqttConnect := 0, relayOn := false }

/-- The external and internal events that mutate the control state of the
humidifier variant: link loss edges, broker connect attempts (with the
environment-supplied outcome), inbound messages on the three subscribed
topics (delivered only while the session is connected), the /control web
handler, and the 1 Hz control tick. -/
inductive HumEvent where
  | wifiDrop : HumEvent
  | mqttDrop : HumEvent
  | mqttAttempt (now : ℕ) (ok : Bool) : HumEvent
  | msgEnable (p : Option Bool) : HumEvent
  | msgSetpoint (p : Option (Option ℚ)) : HumEvent
  | msgHumidity (p : Option (Option ℚ)) (now : ℕ) : HumEvent
  | webCtl (en : Option Bool) (sp : Option (Option ℚ)) : HumEvent
  | tick : HumEvent
  deriving Repr, DecidableEq

/-- One event step.  MQTT callbacks fire only while the session is connected
(`mqtt.loop()` delivers nothing otherwise). -/
def stepEvent (s : HumState) (e : HumEvent) : HumState :=
  match e with
  | .wifiDrop => wifiDropCleanup s
  | .mqttDrop => mqttDropCleanup s
  | .mqttAttempt now ok => mqttConnectIfNeeded s now ok
  | .msgEnable p => if s.mqttConnected then applyEnable s p else s
  | .msgSetpoint p => if s.mqttConnected then applySetpoint s p else s
  | .msgHumidity p now => if s.mqttConnected then applyHumidity s p now else s
  | .webCtl en sp => webControl s en sp
  | .tick => controlLoopTick s

/-- A whole event trace, folded left to right. -/
def runEvents (s : HumState) (es : List HumEvent) : HumState :=
  es.foldl stepEvent s

/-- The state after setup(): relay driven OFF, defaults loaded. -/
def initState : HumState :=
  { mqttConnected := false
    mqttHostConfigured := true
    systemEnabled := true
    relayOn := false
    targetHumidity := 45
    hysteresis := 2
    currentHumidity := none
    lastHumidityAcceptMs := 0
    lastHumiditySeenMs := 0
    humiditySamplesSinceMqttConnect := 0
    humidityMinIntervalMs := DEFAULT_HUMIDITY_MIN_INTERVAL_MS
    lastMqttAttemptMs := 0
    mqttBackoffMs := MQTT_RECONNECT_MIN_MS }

/-- The fail-safe relay invariant: the relay is ON only in the
fully-connected, enabled, known-data state. -/
def relaySafe (s : HumState) : Prop :=
  s.relayOn = true → s.mqttConnected = true ∧ s.systemEnabled = true ∧ s.currentHumidity ≠ none

/-- An event is a humidity-topic message whose payload parses to NaN. -/
def isNanHumidityMsg (e : HumEvent) : Prop :=
  match e with
  | .msgHumidity (some none) _ => True
  | _ => False

instance (e : HumEvent) : Decidable (isNanHumidityMsg e) := by
  unfold isNanHumidityMsg
  cases e with
  | msgHumidity p now =>
      cases p with
      | none => exact inferInstanceAs (Decidable False)
      | some v =>
          cases v with
          | none => exact inferInstanceAs (Decidable True)
          | some q => exact inferInstanceAs (Decidable False)
  | wifiDrop => exact inferInstanceAs (Decidable False)
  | mqttDrop => exact inferInstanceAs (Decidable False)
  | mqttAttempt now ok => exact inferInstanceAs (Decidable False)
  | msgEnable p => exact inferInstanceAs (Decidable False)
  | msgSetpoint p => exact inferInstanceAs (Decidable False)
  | webCtl en sp => exact inferInstanceAs (Decidable False)
  | tick => exact inferInstanceAs (Decidable False)

end Humidifier

namespace Humidifier

/-- A sequence of failed connect attempts folded through mqttConnectIfNeeded. -/
def failRun (s : HumState) : List ℕ → HumState
  | [] => s
  | t :: ts => failRun (mqttConnectIfNeeded s t false) ts

/-- The attempt times are eligible: each one is at least a full backoff
interval after the previous recorded attempt, so the source actually performs
the connect attempt there. -/
def eligibleTimes (s : HumState) : List ℕ → Bool
  | [] => true
  | t :: ts =>
      decide (s.mqttBackoffMs ≤ t - s.lastMqttAttemptMs) &&
      eligibleTimes (mqttConnectIfNeeded s t false) ts

end Humidifier

namespace Watchdog

/-- One evaluation of the anti-hang watchdog block in loop() (humidifier
variant, broker-silence case), at a 1 Hz tick at time `now`, with wifi
connected, a positive timeout configured, and the broker disconnected since
`since` (0 encodes "not silent").  Returns whether the recovery action fired
and the updated `lastHangActionMs`. -/
def watchdogTick (timeoutMs since lastAction now : ℕ) : Bool × ℕ :=
  let hang := since > 0 ∧ now - since > timeoutMs
  if hang ∧ (lastAction = 0 ∨ now - lastAction > timeoutMs) then
    (true, now)
  else (false, lastAction)

/-- The times at which the watchdog fires its recovery action over a run of
1 Hz ticks at the given times, with the broker disconnected throughout
(`since` constant) and wifi connected throughout. -/
def watchdogRun (timeoutMs since lastAction : ℕ) : List ℕ → List ℕ
  | [] => []
  | t :: ts =>
      if (watchdogTick timeoutMs since lastAction t).1 then
        t :: watchdogRun timeoutMs since t ts
      else
        watchdogRun timeoutMs since lastAction ts

end Watchdog

namespace ButtonSim

/-- RELAY_MAX from the source. -/
def RELAY_MAX : ℕ := 4

/-- PRESS_MS_MIN from the source. -/
def PRESS_MS_MIN : ℕ := 20

/-- PRESS_MS_MAX from the source. -/
def PRESS_MS_MAX : ℕ := 5000

/-- A per-channel press job: {active, startMs}. -/
structure PressJob where
  active : Bool
  startMs : ℕ
  deriving Repr, DecidableEq

/-- The control state of the button-simulator variant: enabled flag, the
configured active-channel count, the pulse duration, the four relay levels
and the four press jobs (mirroring the per-channel globals and switch-based
accessors of the source). -/
structure BtnState where
  systemEnabled : Bool
  relayCount : ℕ
  pressMs : ℕ
  relay1On : Bool
  relay2On : Bool
  relay3On : Bool
  relay4On : Bool
  press1 : PressJob
  press2 : PressJob
  press3 : PressJob
  press4 : PressJob
  deriving Repr, DecidableEq

/-- clampRelayCount from the source: web/persisted relay counts are clamped
into [1, RELAY_MAX] before being stored. -/
def clampRelayCount (v : ℤ) : ℕ :=
  if v < 1 then 1 else if v > (RELAY_MAX : ℤ) then RELAY_MAX else v.toNat

/-- clampPressMs from the source: press durations are clamped into
[PRESS_MS_MIN, PRESS_MS_MAX]. -/
def clampPressMs (v : ℕ) : ℕ :=
  if v < PRESS_MS_MIN then PRESS_MS_MIN
  else if v > PRESS_MS_MAX then PRESS_MS_MAX else v

/-- getRelayOn from the source (switch over the channel index). -/
def getRelayOn (s : BtnState) (i : ℕ) : Bool :=
  if i = 1 then s.relay1On
  else if i = 2 then s.relay2On
  else if i = 3 then s.relay3On
  else if i = 4 then s.relay4On
  else false

/-- setRelayOn from the source. -/
def setRelayOn (s : BtnState) (i : ℕ) (b : Bool) : BtnState :=
  if i = 1 then { s with relay1On := b }
  else if i = 2 then { s with relay2On := b }
  else if i = 3 then { s with relay3On := b }
  else if i = 4 then { s with relay4On := b }
  else s

/-- getPressJob from the source; `none` models the null pointer returned for
an index outside 1..4. -/
def getPressJob (s : BtnState) (i : ℕ) : Option PressJob :=
  if i = 1 then some s.press1
  else if i = 2 then some s.press2
  else if i = 3 then some s.press3
  else if i = 4 then some s.press4
  else none

/-- Writing through the job pointer returned by getPressJob. -/
def setPressJob (s : BtnState) (i : ℕ) (j : PressJob) : BtnState :=
  if i = 1 then { s with press1 := j }
  else if i = 2 then { s with press2 := j }
  else if i = 3 then { s with press3 := j }
  else if i = 4 then { s with press4 := j }
  else s

/-- relayWrite from the source: rejects indices outside 1..RELAY_MAX, sets
the logical level and performs the (external) physical pin write. -/
def relayWrite (s : BtnState) (i : ℕ) (b : Bool) : BtnState :=
  if i < 1 ∨ i > RELAY_MAX then s else setRelayOn s i b

/-- requestPress from the source: ignored when the system is disabled or the
index is outside 1..min(relayCount, RELAY_MAX); otherwise the channel's job
is marked active with the current time as its start, and the relay is driven
ON.  Event/state publishes are external side effects. -/
def requestPress (s : BtnState) (index now : ℕ) : BtnState :=
  if ¬s.systemEnabled then s
  else if index < 1 ∨ index > s.relayCount ∨ index > RELAY_MAX then s
  else
    match getPressJob s index with
    | none => s
    | some _ =>
        let s1 := setPressJob s index { active := true, startMs := now }
        relayWrite s1 index true

/-- The body of the per-channel finish check in pressLoopTick. -/
def pressTickBody (s : BtnState) (i now : ℕ) : BtnState :=
  match getPressJob s i with
  | none => s
  | some job =>
      if job.active ∧ s.pressMs ≤ now - job.startMs then
        relayWrite (setPressJob s i { job with active := false }) i false
      else s

/-- pressLoopTick from the source: the loop
`for (i = 1; i <= relayCount && i <= RELAY_MAX; i++)` unrolled over the four
channels. -/
def pressLoopTick (s : BtnState) (now : ℕ) : BtnState :=
  let s1 := if 1 ≤ s.relayCount then pressTickBody s 1 now else s
  let s2 := if 2 ≤ s1.relayCount then pressTickBody s1 2 now else s1
  let s3 := if 3 ≤ s2.relayCount then pressTickBody s2 3 now else s2
  if 4 ≤ s3.relayCount then pressTickBody s3 4 now else s3

/-- The reed-switch debounce state (humidifier-independent binary sensor of
the button-simulator variant). -/
structure ReedState where
  hasStable : Bool
  lastSampleValue : Bool
  stableSamples : ℕ
  doorClosed : Bool
  deriving Repr, DecidableEq

/-- One 20 ms debounce sample from the reed polling block in loop(): the
first sample seeds the stable value immediately; afterwards a matching raw
sample increments the match counter (capped at 10), a differing one tracks
the new raw value with counter 1, and the stable output flips only when the
counter has reached 3 and the raw value differs from the current stable
value. -/
def reedDebounceStep (s : ReedState) (v : Bool) : ReedState :=
  if ¬s.hasStable then
    { hasStable := true, lastSampleValue := v, stableSamples := 1, doorClosed := v }
  else
    let s1 :=
      if v = s.lastSampleValue then
        { s with stableSamples :=
            if s.stableSamples < 10 then s.stableSamples + 1 else s.stableSamples }
      else
        { s with lastSampleValue := v, stableSamples := 1 }
    if 3 ≤ s1.stableSamples ∧ v ≠ s1.doorClosed then { s1 with doorClosed := v } else s1

/-- The reed debounce globals at boot. -/
def reedInit : ReedState :=
  { hasStable := false, lastSampleValue := false, stableSamples := 0, doorClosed := false }

/-- The stable output after each raw sample of a sequence. -/
def reedStableTrace (s : ReedState) : List Bool → List Bool
  | [] => []
  | v :: vs =>
      let s1 := reedDebounceStep s v
      s1.doorClosed :: reedStableTrace s1 vs

/-- The concrete configuration used by the specification's examples: system
enabled, two active channels, 200 ms pulse duration, all channels idle. -/
def exampleBtnState : BtnState :=
  { systemEnabled := true, relayCount := 2, pressMs := 200,
    relay1On := false, relay2On := false, relay3On := false, relay4On := false,
    press1 := ⟨false, 0⟩, press2 := ⟨false, 0⟩, press3 := ⟨false, 0⟩,
    press4 := ⟨false, 0⟩ }

end ButtonSim

open Humidifier ButtonSim Watchdog

/-- Claim C9: the reed debounce seeds the stable value with the first sample,
increments the match counter (capped at 10) on a matching raw sample, resets
it to 1 (tracking the new raw value) on a mismatch, changes the stable output
only when the counter has reached 3 and the raw value differs from the
current stable value, and maps the raw sequence [1,0,1,0,0,0] to the stable
sequence [1,1,1,1,1,0]. -/
theorem C9_debounce (s : ButtonSim.ReedState) (v : Bool) :
    (s.hasStable = false → reedDebounceStep s v =
        { hasStable := true, lastSampleValue := v, stableSamples := 1, doorClosed := v }) ∧
    (s.hasStable = true → v = s.lastSampleValue →
        (reedDebounceStep s v).stableSamples =
          (if s.stableSamples < 10 then s.stableSamples + 1 else s.stableSamples)) ∧
    (s.hasStable = true → v ≠ s.lastSampleValue →
        (reedDebounceStep s v).stableSamples = 1 ∧
        (reedDebounceStep s v).lastSampleValue = v) ∧
    (s.hasStable = true → (reedDebounceStep s v).doorClosed ≠ s.doorClosed →
        3 ≤ (reedDebounceStep s v).stableSamples ∧ v ≠ s.doorClosed ∧
        (reedDebounceStep s v).doorClosed = v) ∧
    reedStableTrace reedInit [true, false, true, false, false, false] =
      [true, true, true, true, true, false] := by
  refine ⟨?_, ?_, ?_, ?_, by decide⟩
  · intro h
    simp [reedDebounceStep, h]
  · intro h hv
    rcases s with ⟨hs, lsv, ss, dc⟩
    simp only at h
    subst h
    cases v <;> cases lsv <;> cases dc <;>
      simp_all [reedDebounceStep] <;> split_ifs <;> simp_all
  · intro h hv
    rcases s with ⟨hs, lsv, ss, dc⟩
    simp only at h
    subst h
    cases v <;> cases lsv <;> cases dc <;> simp_all [reedDebounceStep]
  · intro h hch
    rcases s with ⟨hs, lsv, ss, dc⟩
    simp only at h
    subst h
    cases v <;> cases lsv <;> cases dc <;>
      simp_all [reedDebounceStep] <;> split_ifs <;> simp_all

/-- Claim C9 witness: the seeding clause applied at a concrete fresh state. -/
theorem C9_debounce_witness :
    reedDebounceStep reedInit true =
      { hasStable := true, lastSampleValue := true, stableSamples := 1, doorClosed := true } :=
  (C9_debounce reedInit true).1 rfl

/-- Claim C6: at a control tick with no fail-safe condition (connected,
enabled, humidity known), the hysteresis law holds: OFF with the value
strictly below target minus hysteresis and a trusted freshness gate commands
ON; OFF below the low threshold but untrusted holds the state; ON with the
value strictly above target plus hysteresis commands OFF with no freshness
gating; anything else holds the current state. -/
theorem C6_hysteresis (s : HumState) (v : ℚ)
    (hc : s.mqttConnected = true) (he : s.systemEnabled = true)
    (hv : s.currentHumidity = some v) :
    (s.relayOn = false → v < lowThreshold s → 2 ≤ s.humiditySamplesSinceMqttConnect →
        (controlLoopTick s).relayOn = true) ∧
    (s.relayOn = false → v < lowThreshold s → s.humiditySamplesSinceMqttConnect < 2 →
        controlLoopTick s = s) ∧
    (s.relayOn = true → highThreshold s < v → (controlLoopTick s).relayOn = false) ∧
    (¬(s.relayOn = false ∧ v < lowThreshold s) → ¬(s.relayOn = true ∧ highThreshold s < v) →
        controlLoopTick s = s) := by
  refine ⟨?_, ?_, ?_, ?_⟩
  · intro h1 h2 h3
    simp [controlLoopTick, hc, he, hv, h1, h2, Nat.not_lt.2 h3]
  · intro h1 h2 h3
    simp [controlLoopTick, hc, he, hv, h1, h2, h3]
  · intro h1 h2
    simp [controlLoopTick, hc, he, hv, h1, h2, not_lt.2 (le_of_lt h2)]
  · intro h1 h2
    by_cases hro : s.relayOn = true
    · have hh : ¬(highThreshold s < v) := fun hl => h2 ⟨hro, hl⟩
      simp [controlLoopTick, hc, he, hv, hro, hh]
    · have hro2 : s.relayOn = false := by simpa using hro
      have hl : ¬(v < lowThreshold s) := fun hl => h1 ⟨hro2, hl⟩
      simp [controlLoopTick, hc, he, hv, hro2, hl]

/-- Claim C6 witness: with target 45 and hysteresis 2, a trusted sample 42
while OFF turns the relay ON, sample 48 while ON turns it OFF, and sample 45
while OFF leaves the state unchanged. -/
theorem C6_hysteresis_witness :
    (controlLoopTick { initState with mqttConnected := true, currentHumidity := some 42, humiditySamplesSinceMqttConnect := 2 }).relayOn = true ∧
    (controlLoopTick { initState with mqttConnected := true, currentHumidity := some 48, relayOn := true }).relayOn = false ∧
    controlLoopTick { initState with mqttConnected := true, currentHumidity := some 45 } =
      { initState with mqttConnected := true, currentHumidity := some 45 } := by
  refine ⟨?_, ?_, ?_⟩
  · exact (C6_hysteresis _ 42 rfl rfl rfl).1 rfl (by norm_num [lowThreshold, initState])
      (by norm_num [initState])
  · exact (C6_hysteresis _ 48 rfl rfl rfl).2.2.1 rfl (by norm_num [highThreshold, initState])
  · exact (C6_hysteresis _ 45 rfl rfl rfl).2.2.2 (by norm_num [lowThreshold, initState])
      (by norm_num [highThreshold, initState])

/-- Every output of clampSetpoint on a finite value lies in
[SETPOINT_MIN, SETPOINT_MAX]. -/
lemma clampSetpoint_bounds (x y : ℚ) (h : clampSetpoint (some x) = some y) :
    SETPOINT_MIN ≤ y ∧ y ≤ SETPOINT_MAX := by
  have hmm : SETPOINT_MIN ≤ SETPOINT_MAX := by norm_num [SETPOINT_MIN, SETPOINT_MAX]
  simp only [clampSetpoint] at h
  split_ifs at h with h1 h2 <;> rw [Option.some.injEq] at h <;> subst h
  · exact ⟨le_refl _, hmm⟩
  · exact ⟨hmm, le_refl _⟩
  · exact ⟨not_lt.1 h1, not_lt.1 h2⟩

/-- The MQTT setpoint branch stores only clamped target values. -/
lemma applySetpoint_target (s : HumState) (p : Option (Option ℚ)) :
    (applySetpoint s p).targetHumidity = s.targetHumidity ∨
      (SETPOINT_MIN ≤ (applySetpoint s p).targetHumidity ∧
        (applySetpoint s p).targetHumidity ≤ SETPOINT_MAX) := by
  rcases p with _ | v
  · left; rfl
  · rcases v with _ | x
    · left
      simp [applySetpoint, clampSetpoint]
    · rcases hc : clampSetpoint (some x) with _ | q
      · exfalso
        simp only [clampSetpoint] at hc
        split_ifs at hc
      · simp only [applySetpoint, hc]
        split_ifs with hne
        · right; exact clampSetpoint_bounds x q hc
        · left; rfl

/-- The /control web handler stores only clamped target values. -/
lemma webControl_target (s : HumState) (en : Option Bool) (sp : Option (Option ℚ)) :
    (webControl s en sp).targetHumidity = s.targetHumidity ∨
      (SETPOINT_MIN ≤ (webControl s en sp).targetHumidity ∧
        (webControl s en sp).targetHumidity ≤ SETPOINT_MAX) := by
  rcases sp with _ | v
  · left
    simp only [webControl]
    split_ifs <;> rfl
  · rcases v with _ | x
    · left
      simp only [webControl]
      split_ifs <;> rfl
    · rcases hc : clampSetpoint (some x) with _ | q
      · exfalso
        simp only [clampSetpoint] at hc
        split_ifs at hc
      · simp only [webControl, hc]
        split_ifs <;> first
          | (right; exact clampSetpoint_bounds x q hc)
          | (left; rfl)

/-- Claim C3 counterexample: the /save web handler stores an unvalidated
hysteresis; posting hysteresis 0 (a payload parseFloat accepts) makes the low
threshold equal to the high threshold, so the strict inequality of the claim
fails at the very next evaluation. -/
theorem C3_counterexample :
    ¬(lowThreshold (webSaveHysteresis initState (some 0)) <
        highThreshold (webSaveHysteresis initState (some 0))) := by
  norm_num [lowThreshold, highThreshold, webSaveHysteresis, initState]

/-- Claim C3 (amended): the low threshold is strictly below the high
threshold whenever the configured hysteresis is positive (the hysteresis
itself is stored from the web form without validation, so non-positive
values are reachable and break the strict ordering); and every target value
accepted from MQTT or the web interface is clamped into
[SETPOINT_MIN, SETPOINT_MAX] = [10, 80] before being stored. -/
theorem C3_thresholds_amended (s : HumState) (p : Option (Option ℚ))
    (en : Option Bool) (x y : ℚ) :
    (0 < s.hysteresis → lowThreshold s < highThreshold s) ∧
    (clampSetpoint (some x) = some y → SETPOINT_MIN ≤ y ∧ y ≤ SETPOINT_MAX) ∧
    ((applySetpoint s p).targetHumidity = s.targetHumidity ∨
      (SETPOINT_MIN ≤ (applySetpoint s p).targetHumidity ∧
        (applySetpoint s p).targetHumidity ≤ SETPOINT_MAX)) ∧
    ((webControl s en p).targetHumidity = s.targetHumidity ∨
      (SETPOINT_MIN ≤ (webControl s en p).targetHumidity ∧
        (webControl s en p).targetHumidity ≤ SETPOINT_MAX)) := by
  refine ⟨?_, clampSetpoint_bounds x y, applySetpoint_target s p, webControl_target s en p⟩
  intro h
  unfold lowThreshold highThreshold
  linarith

/-- Claim C3 witness: positive default hysteresis yields a strict band, and
the out-of-range setpoint 100 is clamped to 80. -/
theorem C3_witness :
    lowThreshold initState < highThreshold initState ∧
    (SETPOINT_MIN ≤ (80:ℚ) ∧ (80:ℚ) ≤ SETPOINT_MAX) :=
  ⟨(C3_thresholds_amended initState none none 0 0).1 (by norm_num [initState]),
   (C3_thresholds_amended initState none none 100 80).2.1 (by
      norm_num [clampSetpoint, SETPOINT_MIN, SETPOINT_MAX])⟩

/-- Claim C4 counterexample: an unparseable humidity payload is not free of
state changes - it still increments the per-connection sample counter (the
source increments before throttling and parsing), so the resulting state
differs from the prior state. -/
theorem C4_counterexample :
    applyHumidity { initState with mqttConnected := true } none 5000 ≠
      { initState with mqttConnected := true } ∧
    (applyHumidity { initState with mqttConnected := true } none
        5000).humiditySamplesSinceMqttConnect = 1 := by
  constructor
  · intro h
    have h2 := congrArg HumState.humiditySamplesSinceMqttConnect h
    simp [applyHumidity, initState] at h2
  · simp [applyHumidity, initState]

/-- Claim C4 (amended): a malformed setpoint payload changes nothing; a
malformed enabled payload changes nothing while enabled and merely re-issues
the relay-OFF write while disabled; a malformed humidity payload leaves the
stored humidity, setpoint, enabled flag and relay state unchanged but still
increments the per-connection sample counter (saturating at 255). -/
theorem C4_malformed_amended (s : HumState) (now : ℕ) :
    applySetpoint s none = s ∧
    (s.systemEnabled = true → applyEnable s none = s) ∧
    (s.systemEnabled = false → applyEnable s none = { s with relayOn := false }) ∧
    ((applyHumidity s none now).currentHumidity = s.currentHumidity ∧
     (applyHumidity s none now).targetHumidity = s.targetHumidity ∧
     (applyHumidity s none now).systemEnabled = s.systemEnabled ∧
     (applyHumidity s none now).relayOn = s.relayOn ∧
     (applyHumidity s none now).humiditySamplesSinceMqttConnect =
       (if s.humiditySamplesSinceMqttConnect < 255 then
          s.humiditySamplesSinceMqttConnect + 1
        else s.humiditySamplesSinceMqttConnect)) := by
  refine ⟨rfl, ?_, ?_, ?_⟩
  · intro h
    simp [applyEnable, h]
  · intro h
    simp [applyEnable, h]
  · simp only [applyHumidity]
    split_ifs <;> simp

/-- Claim C4 witness: the no-change clauses applied at a concrete state. -/
theorem C4_witness :
    applySetpoint initState none = initState ∧ applyEnable initState none = initState :=
  ⟨(C4_malformed_amended initState 0).1, (C4_malformed_amended initState 0).2.1 rfl⟩

/-- While disconnected with a host configured, no attempt happens inside the
backoff window: the state is unchanged. -/
lemma connect_gated (s : HumState) (now : ℕ) (ok : Bool)
    (h1 : s.mqttConnected = false) (h2 : s.mqttHostConfigured = true)
    (h3 : now - s.lastMqttAttemptMs < s.mqttBackoffMs) :
    mqttConnectIfNeeded s now ok = s := by
  simp [mqttConnectIfNeeded, h1, h2, h3]

/-- An eligible successful attempt records the attempt time, resets the
backoff to the minimum, zeroes the freshness counter and marks the session
connected. -/
lemma connect_success (s : HumState) (now : ℕ)
    (h1 : s.mqttConnected = false) (h2 : s.mqttHostConfigured = true)
    (h3 : s.mqttBackoffMs ≤ now - s.lastMqttAttemptMs) :
    mqttConnectIfNeeded s now true =
      { s with lastMqttAttemptMs := now, mqttBackoffMs := MQTT_RECONNECT_MIN_MS, humiditySamplesSinceMqttConnect := 0, mqttConnected := true } := by
  simp [mqttConnectIfNeeded, h1, h2, Nat.not_lt.2 h3]

/-- An eligible failed attempt records the attempt time and doubles the
backoff, capped at the maximum. -/
lemma connect_failure (s : HumState) (now : ℕ)
    (h1 : s.mqttConnected = false) (h2 : s.mqttHostConfigured = true)
    (h3 : s.mqttBackoffMs ≤ now - s.lastMqttAttemptMs) :
    mqttConnectIfNeeded s now false =
      { s with lastMqttAttemptMs := now, mqttBackoffMs := min (s.mqttBackoffMs * 2) MQTT_RECONNECT_MAX_MS } := by
  have hm : (if s.mqttBackoffMs * 2 > MQTT_RECONNECT_MAX_MS then MQTT_RECONNECT_MAX_MS
      else s.mqttBackoffMs * 2) = min (s.mqttBackoffMs * 2) MQTT_RECONNECT_MAX_MS := by
    rw [Nat.min_def]
    split_ifs <;> omega
  simp [mqttConnectIfNeeded, h1, h2, Nat.not_lt.2 h3, hm]

/-- Arithmetic core of the doubling recurrence: folding one capped doubling
into the closed form. -/
lemma min_double_pow (b n M : ℕ) :
    min (min (b * 2) M * 2 ^ n) M = min (b * (2 ^ n * 2)) M := by
  rcases le_total (b * 2) M with h | h
  · rw [min_eq_left h]
    congr 1
    ring
  · rw [min_eq_right h]
    have hp : 0 < 2 ^ n := pow_pos (by norm_num) n
    have hA : M ≤ M * 2 ^ n := Nat.le_mul_of_pos_right M hp
    rw [min_eq_right hA]
    have hB : M ≤ b * (2 ^ n * 2) := by
      calc M ≤ b * 2 := h
        _ ≤ b * 2 * 2 ^ n := Nat.le_mul_of_pos_right _ hp
        _ = b * (2 ^ n * 2) := by ring
    rw [min_eq_right hB]

/-- Closed form for the backoff after any run of eligible failed attempts. -/
lemma failRun_backoff (ts : List ℕ) (s : HumState)
    (h1 : s.mqttConnected = false) (h2 : s.mqttHostConfigured = true)
    (h3 : s.mqttBackoffMs ≤ MQTT_RECONNECT_MAX_MS)
    (he : eligibleTimes s ts = true) :
    (failRun s ts).mqttBackoffMs =
      min (s.mqttBackoffMs * 2 ^ ts.length) MQTT_RECONNECT_MAX_MS := by
  induction ts generalizing s with
  | nil =>
      simp only [failRun, List.length_nil, pow_zero, Nat.mul_one]
      omega
  | cons t ts ih =>
      simp only [eligibleTimes, Bool.and_eq_true, decide_eq_true_eq] at he
      obtain ⟨het, hrest⟩ := he
      rw [failRun]
      rw [connect_failure s t h1 h2 het] at hrest ⊢
      set s2 : HumState := { s with lastMqttAttemptMs := t, mqttBackoffMs := min (s.mqttBackoffMs * 2) MQTT_RECONNECT_MAX_MS } with hs2
      have hb2 : s2.mqttBackoffMs ≤ MQTT_RECONNECT_MAX_MS := min_le_right _ _
      rw [ih s2 h1 h2 hb2 hrest]
      have hbeq : s2.mqttBackoffMs = min (s.mqttBackoffMs * 2) MQTT_RECONNECT_MAX_MS := rfl
      rw [hbeq]
      simp only [List.length_cons, pow_succ]
      exact min_double_pow s.mqttBackoffMs ts.length MQTT_RECONNECT_MAX_MS

/-- Claim C5: while disconnected with a host configured, an attempt happens
only once `now - lastAttemptTimestamp` is at least the backoff interval; an
eligible successful attempt resets the backoff to minBackoff = 1000 ms
(recording the attempt time and connecting); an eligible failed attempt
doubles the backoff capped at maxBackoff = 30000 ms; and after any run of N
eligible consecutive failures starting from the minimum backoff the interval
equals min(minBackoff * 2^N, maxBackoff). -/
theorem C5_backoff (s : HumState) (now : ℕ) (ok : Bool) (ts : List ℕ)
    (h1 : s.mqttConnected = false) (h2 : s.mqttHostConfigured = true) :
    (now - s.lastMqttAttemptMs < s.mqttBackoffMs → mqttConnectIfNeeded s now ok = s) ∧
    (s.mqttBackoffMs ≤ now - s.lastMqttAttemptMs →
        (mqttConnectIfNeeded s now true).mqttBackoffMs = MQTT_RECONNECT_MIN_MS ∧
        (mqttConnectIfNeeded s now true).mqttConnected = true ∧
        (mqttConnectIfNeeded s now true).lastMqttAttemptMs = now) ∧
    (s.mqttBackoffMs ≤ now - s.lastMqttAttemptMs →
        (mqttConnectIfNeeded s now false).mqttBackoffMs =
          min (s.mqttBackoffMs * 2) MQTT_RECONNECT_MAX_MS) ∧
    (s.mqttBackoffMs = MQTT_RECONNECT_MIN_MS → eligibleTimes s ts = true →
        (failRun s ts).mqttBackoffMs =
          min (MQTT_RECONNECT_MIN_MS * 2 ^ ts.length) MQTT_RECONNECT_MAX_MS) := by
  refine ⟨fun h3 => connect_gated s now ok h1 h2 h3, fun h3 => ?_, fun h3 => ?_,
    fun hb he => ?_⟩
  · rw [connect_success s now h1 h2 h3]
    exact ⟨rfl, rfl, rfl⟩
  · rw [connect_failure s now h1 h2 h3]
  · rw [failRun_backoff ts s h1 h2 ?_ he, hb]
    rw [hb]
    norm_num [MQTT_RECONNECT_MIN_MS, MQTT_RECONNECT_MAX_MS]

/-- Claim C5 witness: from the boot state, an attempt at 500 ms is suppressed
by the 1000 ms backoff, and three eligible consecutive failures at
1000/3000/7000 ms leave the backoff at min(1000 * 2^3, 30000) = 8000 ms. -/
theorem C5_backoff_witness :
    mqttConnectIfNeeded initState 500 true = initState ∧
    (failRun initState [1000, 3000, 7000]).mqttBackoffMs = 8000 := by
  constructor
  · exact (C5_backoff initState 500 true [] rfl rfl).1 (by decide)
  · exact ((C5_backoff initState 0 true [1000, 3000, 7000] rfl rfl).2.2.2 rfl
      (by decide)).trans (by decide)

/-- Every recovery action fired by the watchdog run happens strictly later
than the silence start plus one full timeout. -/
lemma watchdogRun_late (T t0 : ℕ) (hT : 0 < T) :
    ∀ (ts : List ℕ) (la : ℕ), ∀ a ∈ watchdogRun T t0 la ts, t0 + T < a := by
  intro ts
  induction ts with
  | nil => intro la a ha; simp [watchdogRun] at ha
  | cons t ts ih =>
      intro la a ha
      rw [watchdogRun] at ha
      by_cases hf : (watchdogTick T t0 la t).1 = true
      · rw [if_pos hf] at ha
        rcases List.mem_cons.1 ha with h | h
        · subst h
          simp only [watchdogTick] at hf
          split_ifs at hf with hc
          obtain ⟨⟨hpos, hgt⟩, _⟩ := hc
          omega
        · exact ih t a h
      · rw [if_neg hf] at ha
        exact ih la a ha

/-- With a previous action recorded, the next fired action is more than one
timeout after it. -/
lemma watchdogRun_head_gap (T t0 : ℕ) :
    ∀ (ts : List ℕ) (la : ℕ), 0 < la →
      ∀ a, (watchdogRun T t0 la ts).head? = some a → la + T < a := by
  intro ts
  induction ts with
  | nil => intro la hla a ha; simp [watchdogRun] at ha
  | cons t ts ih =>
      intro la hla a ha
      rw [watchdogRun] at ha
      by_cases hf : (watchdogTick T t0 la t).1 = true
      · rw [if_pos hf] at ha
        simp only [List.head?_cons, Option.some.injEq] at ha
        subst ha
        simp only [watchdogTick] at hf
        split_ifs at hf with hc
        obtain ⟨_, hla2⟩ := hc
        rcases hla2 with h0 | hgap
        · omega
        · omega
      · rw [if_neg hf] at ha
        exact ih la hla a ha

/-- Consecutive fired actions are always separated by more than one timeout
interval. -/
lemma watchdogRun_chain (T t0 : ℕ) (hT : 0 < T) :
    ∀ (ts : List ℕ) (la : ℕ),
      List.Chain' (fun a b => a + T < b) (watchdogRun T t0 la ts) := by
  intro ts
  induction ts with
  | nil => intro la; simp [watchdogRun]
  | cons t ts ih =>
      intro la
      rw [watchdogRun]
      by_cases hf : (watchdogTick T t0 la t).1 = true
      · rw [if_pos hf]
        refine List.chain'_cons'.2 ⟨?_, ih t⟩
        intro b hb
        have ht0pos : 0 < t := by
          simp only [watchdogTick] at hf
          split_ifs at hf with hc
          obtain ⟨⟨hpos, hgt⟩, _⟩ := hc
          omega
        exact watchdogRun_head_gap T t0 ts t ht0pos b hb
      · rw [if_neg hf]
        exact ih la

/-- If some tick happens more than one timeout after the silence start, at
least one recovery action fires. -/
lemma watchdogRun_fires (T t0 : ℕ) (ht0 : 0 < t0) :
    ∀ (ts : List ℕ), (∃ t ∈ ts, t0 + T < t) → watchdogRun T t0 0 ts ≠ [] := by
  intro ts
  induction ts with
  | nil => intro h; simp at h
  | cons t ts ih =>
      intro hex
      rw [watchdogRun]
      by_cases hf : (watchdogTick T t0 0 t).1 = true
      · rw [if_pos hf]
        simp
      · rw [if_neg hf]
        apply ih
        obtain ⟨u, hu, hgt⟩ := hex
        rcases List.mem_cons.1 hu with h | h
        · exfalso
          subst h
          apply hf
          simp only [watchdogTick]
          rw [if_pos ⟨⟨ht0, by omega⟩, Or.inl (by simp)⟩]
        · exact ⟨u, h, hgt⟩

/-- Claim C7: over any run of 1 Hz watchdog evaluations with a positive
timeout T, wifi connected, and the broker disconnected since t0 > 0, every
recovery action fires strictly after t0 + T (so none before t = T);
consecutive actions are separated by more than T (so the second cannot occur
before t0 + 2T); and as soon as some tick falls beyond t0 + T at least one
action fires - together: exactly one action in the first window. -/
theorem C7_watchdog (T t0 : ℕ) (ts : List ℕ) (hT : 0 < T) (ht0 : 0 < t0) :
    (∀ a ∈ watchdogRun T t0 0 ts, t0 + T < a) ∧
    List.Chain' (fun a b => a + T < b) (watchdogRun T t0 0 ts) ∧
    ((∃ t ∈ ts, t0 + T < t) → watchdogRun T t0 0 ts ≠ []) ∧
    (∀ a1 a2 rest, watchdogRun T t0 0 ts = a1 :: a2 :: rest → t0 + 2 * T < a2) := by
  have hlate := watchdogRun_late T t0 hT ts 0
  have hchain := watchdogRun_chain T t0 hT ts 0
  refine ⟨hlate, hchain, watchdogRun_fires T t0 ht0 ts, ?_⟩
  intro a1 a2 rest heq
  have h1 : t0 + T < a1 := hlate a1 (by rw [heq]; exact List.mem_cons_self _ _)
  have h2 : a1 + T < a2 := by
    rw [heq] at hchain
    exact (List.chain'_cons.1 hchain).1
  omega

/-- Claim C7 witness: with timeout 30 and silence starting at 1, ticks at
10, 32 and 63 fire exactly at 32 and 63; every action is after 31 and the
run is nonempty. -/
theorem C7_watchdog_witness :
    watchdogRun 30 1 0 [10, 32, 63] = [32, 63] ∧
    (∀ a ∈ watchdogRun 30 1 0 [10, 32, 63], 1 + 30 < a) ∧
    watchdogRun 30 1 0 [10, 32, 63] ≠ [] := by
  refine ⟨by decide, ?_, ?_⟩
  · exact (C7_watchdog 30 1 [10, 32, 63] (by decide) (by decide)).1
  · exact (C7_watchdog 30 1 [10, 32, 63] (by decide) (by decide)).2.2.1
      ⟨32, by decide, by decide⟩

lemma getPressJob_relayWrite (s : BtnState) (i j : ℕ) (b : Bool) :
    getPressJob (relayWrite s i b) j = getPressJob s j := by
  unfold relayWrite setRelayOn getPressJob
  split_ifs <;> rfl

lemma getRelayOn_setPressJob (s : BtnState) (i j : ℕ) (jb : PressJob) :
    getRelayOn (setPressJob s i jb) j = getRelayOn s j := by
  unfold setPressJob getRelayOn
  split_ifs <;> rfl

lemma getPressJob_setPressJob_other (s : BtnState) (i j : ℕ) (jb : PressJob) (h : j ≠ i) :
    getPressJob (setPressJob s i jb) j = getPressJob s j := by
  unfold setPressJob getPressJob
  split_ifs <;> simp_all

lemma getRelayOn_relayWrite_other (s : BtnState) (i j : ℕ) (b : Bool) (h : j ≠ i) :
    getRelayOn (relayWrite s i b) j = getRelayOn s j := by
  unfold relayWrite setRelayOn getRelayOn
  split_ifs <;> simp_all

lemma getPressJob_setPressJob_self (s : BtnState) (i : ℕ) (jb : PressJob)
    (h1 : 1 ≤ i) (h4 : i ≤ 4) :
    getPressJob (setPressJob s i jb) i = some jb := by
  interval_cases i <;> rfl

lemma getRelayOn_relayWrite_self (s : BtnState) (i : ℕ) (b : Bool)
    (h1 : 1 ≤ i) (h4 : i ≤ 4) :
    getRelayOn (relayWrite s i b) i = b := by
  unfold relayWrite setRelayOn getRelayOn
  interval_cases i <;> simp [RELAY_MAX]

lemma setPressJob_meta (s : BtnState) (i : ℕ) (jb : PressJob) :
    (setPressJob s i jb).systemEnabled = s.systemEnabled ∧
    (setPressJob s i jb).relayCount = s.relayCount ∧
    (setPressJob s i jb).pressMs = s.pressMs := by
  unfold setPressJob
  split_ifs <;> exact ⟨rfl, rfl, rfl⟩

lemma relayWrite_meta (s : BtnState) (i : ℕ) (b : Bool) :
    (relayWrite s i b).systemEnabled = s.systemEnabled ∧
    (relayWrite s i b).relayCount = s.relayCount ∧
    (relayWrite s i b).pressMs = s.pressMs := by
  unfold relayWrite setRelayOn
  split_ifs <;> exact ⟨rfl, rfl, rfl⟩

lemma requestPress_eq (s : BtnState) (index now : ℕ)
    (he : s.systemEnabled = true) (h1 : 1 ≤ index) (h2 : index ≤ s.relayCount)
    (h4 : index ≤ RELAY_MAX) :
    requestPress s index now = relayWrite (setPressJob s index ⟨true, now⟩) index true := by
  unfold requestPress
  rw [if_neg (by simp [he]), if_neg (by simp only [RELAY_MAX] at h4 ⊢; omega)]
  simp only [RELAY_MAX] at h4
  interval_cases index <;> rfl

lemma getPressJob_pressTickBody_other (s : BtnState) (i j now : ℕ) (h : j ≠ i) :
    getPressJob (pressTickBody s i now) j = getPressJob s j := by
  unfold pressTickBody
  rcases getPressJob s i with _ | job
  · rfl
  · dsimp only
    split_ifs with hc
    · rw [getPressJob_relayWrite, getPressJob_setPressJob_other s i j _ h]
    · rfl

lemma getRelayOn_pressTickBody_other (s : BtnState) (i j now : ℕ) (h : j ≠ i) :
    getRelayOn (pressTickBody s i now) j = getRelayOn s j := by
  unfold pressTickBody
  rcases getPressJob s i with _ | job
  · rfl
  · dsimp only
    split_ifs with hc
    · rw [getRelayOn_relayWrite_other _ _ _ _ h, getRelayOn_setPressJob]
    · rfl

lemma pressTickBody_relayCount (s : BtnState) (i now : ℕ) :
    (pressTickBody s i now).relayCount = s.relayCount := by
  unfold pressTickBody
  rcases getPressJob s i with _ | job
  · rfl
  · dsimp only
    split_ifs
    · exact ((relayWrite_meta _ _ _).2.1).trans ((setPressJob_meta _ _ _).2.1)
    · rfl

lemma pressTickBody_pressMs (s : BtnState) (i now : ℕ) :
    (pressTickBody s i now).pressMs = s.pressMs := by
  unfold pressTickBody
  rcases getPressJob s i with _ | job
  · rfl
  · dsimp only
    split_ifs
    · exact ((relayWrite_meta _ _ _).2.2).trans ((setPressJob_meta _ _ _).2.2)
    · rfl

lemma pressTickBody_self_expired (t : BtnState) (i now : ℕ)
    (h1 : 1 ≤ i) (h4 : i ≤ 4) (job : PressJob)
    (hj : getPressJob t i = some job) (ha : job.active = true)
    (hd : t.pressMs ≤ now - job.startMs) :
    getPressJob (pressTickBody t i now) i = some { job with active := false } ∧
    getRelayOn (pressTickBody t i now) i = false := by
  unfold pressTickBody
  rw [hj]
  dsimp only
  rw [if_pos ⟨ha, hd⟩]
  constructor
  · rw [getPressJob_relayWrite]
    exact getPressJob_setPressJob_self t i _ h1 h4
  · exact getRelayOn_relayWrite_self _ i false h1 h4

lemma pressTickBody_self_keep (t : BtnState) (i now : ℕ) (job : PressJob)
    (hj : getPressJob t i = some job)
    (hnd : ¬(job.active = true ∧ t.pressMs ≤ now - job.startMs)) :
    pressTickBody t i now = t := by
  unfold pressTickBody
  rw [hj]
  dsimp only
  rw [if_neg hnd]

lemma getPressJob_iteBody_other (c : Prop) [Decidable c] (X : BtnState) (k i now : ℕ)
    (h : i ≠ k) :
    getPressJob (if c then pressTickBody X k now else X) i = getPressJob X i := by
  split_ifs with hc
  · exact getPressJob_pressTickBody_other X k i now h
  · rfl

lemma getRelayOn_iteBody_other (c : Prop) [Decidable c] (X : BtnState) (k i now : ℕ)
    (h : i ≠ k) :
    getRelayOn (if c then pressTickBody X k now else X) i = getRelayOn X i := by
  split_ifs with hc
  · exact getRelayOn_pressTickBody_other X k i now h
  · rfl

lemma iteBody_relayCount (c : Prop) [Decidable c] (X : BtnState) (k now : ℕ) :
    (if c then pressTickBody X k now else X).relayCount = X.relayCount := by
  split_ifs with hc
  · exact pressTickBody_relayCount X k now
  · rfl

lemma iteBody_pressMs (c : Prop) [Decidable c] (X : BtnState) (k now : ℕ) :
    (if c then pressTickBody X k now else X).pressMs = X.pressMs := by
  split_ifs with hc
  · exact pressTickBody_pressMs X k now
  · rfl

lemma pressLoopTick_expired (s : BtnState) (now i : ℕ)
    (h1 : 1 ≤ i) (h2 : i ≤ s.relayCount) (h4 : i ≤ 4) (job : PressJob)
    (hj : getPressJob s i = some job) (ha : job.active = true)
    (hd : s.pressMs ≤ now - job.startMs) :
    getPressJob (pressLoopTick s now) i = some { job with active := false } ∧
    getRelayOn (pressLoopTick s now) i = false := by
  simp only [pressLoopTick, iteBody_relayCount, pressTickBody_relayCount]
  interval_cases i
  · rw [if_pos (by omega : (1:ℕ) ≤ s.relayCount)]
    have hself := pressTickBody_self_expired s 1 now (by omega) (by omega) job hj ha hd
    constructor
    · rw [getPressJob_iteBody_other _ _ _ _ _ (by omega),
        getPressJob_iteBody_other _ _ _ _ _ (by omega),
        getPressJob_iteBody_other _ _ _ _ _ (by omega)]
      exact hself.1
    · rw [getRelayOn_iteBody_other _ _ _ _ _ (by omega),
        getRelayOn_iteBody_other _ _ _ _ _ (by omega),
        getRelayOn_iteBody_other _ _ _ _ _ (by omega)]
      exact hself.2
  · rw [if_pos (by omega : (1:ℕ) ≤ s.relayCount), if_pos (by omega : (2:ℕ) ≤ s.relayCount)]
    have hj1 : getPressJob (pressTickBody s 1 now) 2 = some job := by
      rw [getPressJob_pressTickBody_other _ _ _ _ (by omega)]
      exact hj
    have hp1 : (pressTickBody s 1 now).pressMs = s.pressMs := pressTickBody_pressMs s 1 now
    have hself := pressTickBody_self_expired (pressTickBody s 1 now) 2 now (by omega) (by omega)
      job hj1 ha (by rw [hp1]; exact hd)
    constructor
    · rw [getPressJob_iteBody_other _ _ _ _ _ (by omega),
        getPressJob_iteBody_other _ _ _ _ _ (by omega)]
      exact hself.1
    · rw [getRelayOn_iteBody_other _ _ _ _ _ (by omega),
        getRelayOn_iteBody_other _ _ _ _ _ (by omega)]
      exact hself.2
  · rw [if_pos (by omega : (1:ℕ) ≤ s.relayCount), if_pos (by omega : (2:ℕ) ≤ s.relayCount),
      if_pos (by omega : (3:ℕ) ≤ s.relayCount)]
    set t2 := pressTickBody (pressTickBody s 1 now) 2 now with ht2
    have hj2 : getPressJob t2 3 = some job := by
      rw [ht2, getPressJob_pressTickBody_other _ _ _ _ (by omega),
        getPressJob_pressTickBody_other _ _ _ _ (by omega)]
      exact hj
    have hp2 : t2.pressMs = s.pressMs := by
      rw [ht2, pressTickBody_pressMs, pressTickBody_pressMs]
    have hself := pressTickBody_self_expired t2 3 now (by omega) (by omega)
      job hj2 ha (by rw [hp2]; exact hd)
    constructor
    · rw [getPressJob_iteBody_other _ _ _ _ _ (by omega)]
      exact hself.1
    · rw [getRelayOn_iteBody_other _ _ _ _ _ (by omega)]
      exact hself.2
  · rw [if_pos (by omega : (1:ℕ) ≤ s.relayCount), if_pos (by omega : (2:ℕ) ≤ s.relayCount),
      if_pos (by omega : (3:ℕ) ≤ s.relayCount), if_pos (by omega : (4:ℕ) ≤ s.relayCount)]
    set t3 := pressTickBody (pressTickBody (pressTickBody s 1 now) 2 now) 3 now with ht3
    have hj3 : getPressJob t3 4 = some job := by
      rw [ht3, getPressJob_pressTickBody_other _ _ _ _ (by omega),
        getPressJob_pressTickBody_other _ _ _ _ (by omega),
        getPressJob_pressTickBody_other _ _ _ _ (by omega)]
      exact hj
    have hp3 : t3.pressMs = s.pressMs := by
      rw [ht3, pressTickBody_pressMs, pressTickBody_pressMs, pressTickBody_pressMs]
    exact pressTickBody_self_expired t3 4 now (by omega) (by omega) job hj3 ha
      (by rw [hp3]; exact hd)

lemma pressLoopTick_keep (s : BtnState) (now i : ℕ)
    (h1 : 1 ≤ i) (h2 : i ≤ s.relayCount) (h4 : i ≤ 4) (job : PressJob)
    (hj : getPressJob s i = some job)
    (hnd : ¬(job.active = true ∧ s.pressMs ≤ now - job.startMs)) :
    getPressJob (pressLoopTick s now) i = some job ∧
    getRelayOn (pressLoopTick s now) i = getRelayOn s i := by
  simp only [pressLoopTick, iteBody_relayCount, pressTickBody_relayCount]
  interval_cases i
  · rw [if_pos (by omega : (1:ℕ) ≤ s.relayCount)]
    rw [pressTickBody_self_keep s 1 now job hj hnd]
    constructor
    · rw [getPressJob_iteBody_other _ _ _ _ _ (by omega),
        getPressJob_iteBody_other _ _ _ _ _ (by omega),
        getPressJob_iteBody_other _ _ _ _ _ (by omega)]
      exact hj
    · rw [getRelayOn_iteBody_other _ _ _ _ _ (by omega),
        getRelayOn_iteBody_other _ _ _ _ _ (by omega),
        getRelayOn_iteBody_other _ _ _ _ _ (by omega)]
  · rw [if_pos (by omega : (1:ℕ) ≤ s.relayCount), if_pos (by omega : (2:ℕ) ≤ s.relayCount)]
    have hj1 : getPressJob (pressTickBody s 1 now) 2 = some job := by
      rw [getPressJob_pressTickBody_other _ _ _ _ (by omega)]
      exact hj
    have hp1 : (pressTickBody s 1 now).pressMs = s.pressMs := pressTickBody_pressMs s 1 now
    rw [pressTickBody_self_keep (pressTickBody s 1 now) 2 now job hj1 (by rw [hp1]; exact hnd)]
    constructor
    · rw [getPressJob_iteBody_other _ _ _ _ _ (by omega),
        getPressJob_iteBody_other _ _ _ _ _ (by omega)]
      exact hj1
    · rw [getRelayOn_iteBody_other _ _ _ _ _ (by omega),
        getRelayOn_iteBody_other _ _ _ _ _ (by omega),
        getRelayOn_pressTickBody_other _ _ _ _ (by omega)]
  · rw [if_pos (by omega : (1:ℕ) ≤ s.relayCount), if_pos (by omega : (2:ℕ) ≤ s.relayCount),
      if_pos (by omega : (3:ℕ) ≤ s.relayCount)]
    set t2 := pressTickBody (pressTickBody s 1 now) 2 now with ht2
    have hj2 : getPressJob t2 3 = some job := by
      rw [ht2, getPressJob_pressTickBody_other _ _ _ _ (by omega),
        getPressJob_pressTickBody_other _ _ _ _ (by omega)]
      exact hj
    have hp2 : t2.pressMs = s.pressMs := by
      rw [ht2, pressTickBody_pressMs, pressTickBody_pressMs]
    rw [pressTickBody_self_keep t2 3 now job hj2 (by rw [hp2]; exact hnd)]
    constructor
    · rw [getPressJob_iteBody_other _ _ _ _ _ (by omega)]
      exact hj2
    · rw [getRelayOn_iteBody_other _ _ _ _ _ (by omega), ht2,
        getRelayOn_pressTickBody_other _ _ _ _ (by omega),
        getRelayOn_pressTickBody_other _ _ _ _ (by omega)]
  · rw [if_pos (by omega : (1:ℕ) ≤ s.relayCount), if_pos (by omega : (2:ℕ) ≤ s.relayCount),
      if_pos (by omega : (3:ℕ) ≤ s.relayCount), if_pos (by omega : (4:ℕ) ≤ s.relayCount)]
    set t3 := pressTickBody (pressTickBody (pressTickBody s 1 now) 2 now) 3 now with ht3
    have hj3 : getPressJob t3 4 = some job := by
      rw [ht3, getPressJob_pressTickBody_other _ _ _ _ (by omega),
        getPressJob_pressTickBody_other _ _ _ _ (by omega),
        getPressJob_pressTickBody_other _ _ _ _ (by omega)]
      exact hj
    have hp3 : t3.pressMs = s.pressMs := by
      rw [ht3, pressTickBody_pressMs, pressTickBody_pressMs, pressTickBody_pressMs]
    rw [pressTickBody_self_keep t3 4 now job hj3 (by rw [hp3]; exact hnd)]
    constructor
    · exact hj3
    · rw [ht3, getRelayOn_pressTickBody_other _ _ _ _ (by omega),
        getRelayOn_pressTickBody_other _ _ _ _ (by omega),
        getRelayOn_pressTickBody_other _ _ _ _ (by omega)]

lemma requestPress_reject (s : BtnState) (index now : ℕ)
    (h : s.systemEnabled = false ∨ index < 1 ∨ s.relayCount < index ∨ RELAY_MAX < index) :
    requestPress s index now = s := by
  by_cases he : s.systemEnabled = true
  · have hc : index < 1 ∨ index > s.relayCount ∨ index > RELAY_MAX := by
      rcases h with h | h | h | h
      · rw [he] at h
        exact absurd h (by simp)
      · exact Or.inl h
      · exact Or.inr (Or.inl h)
      · exact Or.inr (Or.inr h)
    unfold requestPress
    rw [if_neg (by simp [he]), if_pos hc]
  · have he2 : ¬(s.systemEnabled = true) := he
    unfold requestPress
    rw [if_pos (by simpa using he2)]

lemma requestPress_accept (s : BtnState) (index now : ℕ)
    (he : s.systemEnabled = true) (h1 : 1 ≤ index) (h2 : index ≤ s.relayCount)
    (h4 : index ≤ RELAY_MAX) :
    getPressJob (requestPress s index now) index = some ⟨true, now⟩ ∧
    getRelayOn (requestPress s index now) index = true ∧
    (∀ j, j ≠ index → getPressJob (requestPress s index now) j = getPressJob s j ∧
        getRelayOn (requestPress s index now) j = getRelayOn s j) ∧
    (requestPress s index now).systemEnabled = s.systemEnabled ∧
    (requestPress s index now).relayCount = s.relayCount ∧
    (requestPress s index now).pressMs = s.pressMs := by
  have h4n : index ≤ 4 := by simpa [RELAY_MAX] using h4
  rw [requestPress_eq s index now he h1 h2 h4]
  refine ⟨?_, ?_, ?_, ?_, ?_, ?_⟩
  · rw [getPressJob_relayWrite]
    exact getPressJob_setPressJob_self s index _ h1 h4n
  · exact getRelayOn_relayWrite_self _ index true h1 h4n
  · intro j hj
    constructor
    · rw [getPressJob_relayWrite, getPressJob_setPressJob_other s index j _ hj]
    · rw [getRelayOn_relayWrite_other _ _ _ _ hj, getRelayOn_setPressJob]
  · exact ((relayWrite_meta _ _ _).1).trans ((setPressJob_meta _ _ _).1)
  · exact ((relayWrite_meta _ _ _).2.1).trans ((setPressJob_meta _ _ _).2.1)
  · exact ((relayWrite_meta _ _ _).2.2).trans ((setPressJob_meta _ _ _).2.2)

lemma clampRelayCount_range (v : ℤ) :
    1 ≤ clampRelayCount v ∧ clampRelayCount v ≤ RELAY_MAX := by
  unfold clampRelayCount RELAY_MAX
  split_ifs <;> constructor <;> omega

/-- Claim C8: a pulse request is rejected (state unchanged) exactly when the
system is disabled or the channel index is outside 1..relayCount (relayCount
is always in 1..RELAY_MAX by clampRelayCount); an accepted request marks the
channel's job active with the request time as start and drives its relay ON,
leaving every other channel's job and relay untouched; and on a tick every
active job with now - startMs at least pressMs clears and turns its relay
OFF, while a job not yet due is left fully unchanged - each channel
independent of the others. -/
theorem C8_pulse_scheduler (s : BtnState) (index now i : ℕ) (job : PressJob) (v : ℤ)
    (hrc : s.relayCount ≤ RELAY_MAX) :
    (s.systemEnabled = false ∨ index < 1 ∨ s.relayCount < index →
        requestPress s index now = s) ∧
    (s.systemEnabled = true → 1 ≤ index → index ≤ s.relayCount →
        getPressJob (requestPress s index now) index = some ⟨true, now⟩ ∧
        getRelayOn (requestPress s index now) index = true ∧
        (∀ j, j ≠ index → getPressJob (requestPress s index now) j = getPressJob s j ∧
            getRelayOn (requestPress s index now) j = getRelayOn s j)) ∧
    (1 ≤ clampRelayCount v ∧ clampRelayCount v ≤ RELAY_MAX) ∧
    (1 ≤ i → i ≤ s.relayCount → getPressJob s i = some job → job.active = true →
        s.pressMs ≤ now - job.startMs →
        getPressJob (pressLoopTick s now) i = some { job with active := false } ∧
        getRelayOn (pressLoopTick s now) i = false) ∧
    (1 ≤ i → i ≤ s.relayCount → getPressJob s i = some job →
        ¬(job.active = true ∧ s.pressMs ≤ now - job.startMs) →
        getPressJob (pressLoopTick s now) i = some job ∧
        getRelayOn (pressLoopTick s now) i = getRelayOn s i) := by
  have hrc4 : s.relayCount ≤ 4 := by simpa [RELAY_MAX] using hrc
  refine ⟨?_, ?_, clampRelayCount_range v, ?_, ?_⟩
  · intro h
    apply requestPress_reject
    tauto
  · intro he hi1 hi2
    obtain ⟨a, b, c, _, _, _⟩ := requestPress_accept s index now he hi1 hi2
      (by simp only [RELAY_MAX]; omega)
    exact ⟨a, b, c⟩
  · intro hi1 hi2 hj ha hd
    exact pressLoopTick_expired s now i hi1 hi2 (by omega) job hj ha hd
  · intro hi1 hi2 hj hnd
    exact pressLoopTick_keep s now i hi1 hi2 (by omega) job hj hnd

/-- Claim C10: a pulse request for a channel whose job is already active is
not rejected: it overwrites the job's start with the current time and keeps
the relay ON (other channels untouched), so a subsequent tick before
now + pressMs still sees the channel ON - the pulse is extended, not queued
or rejected. -/
theorem C10_retrigger (s : BtnState) (index now t : ℕ) (job : PressJob)
    (hrc : s.relayCount ≤ RELAY_MAX)
    (he : s.systemEnabled = true) (h1 : 1 ≤ index) (h2 : index ≤ s.relayCount)
    (_hj : getPressJob s index = some job) (_ha : job.active = true) :
    getPressJob (requestPress s index now) index = some ⟨true, now⟩ ∧
    getRelayOn (requestPress s index now) index = true ∧
    (∀ j, j ≠ index → getPressJob (requestPress s index now) j = getPressJob s j ∧
        getRelayOn (requestPress s index now) j = getRelayOn s j) ∧
    (t - now < s.pressMs →
        getPressJob (pressLoopTick (requestPress s index now) t) index = some ⟨true, now⟩ ∧
        getRelayOn (pressLoopTick (requestPress s index now) t) index = true) := by
  have hrc4 : s.relayCount ≤ 4 := by simpa [RELAY_MAX] using hrc
  have h4n : index ≤ RELAY_MAX := by simp only [RELAY_MAX]; omega
  obtain ⟨a, b, c, m1, m2, m3⟩ := requestPress_accept s index now he h1 h2 h4n
  refine ⟨a, b, c, ?_⟩
  intro ht
  have h2x : index ≤ (requestPress s index now).relayCount := by rw [m2]; exact h2
  have hnd : ¬((⟨true, now⟩ : PressJob).active = true ∧
      (requestPress s index now).pressMs ≤ t - (⟨true, now⟩ : PressJob).startMs) := by
    rw [m3]
    intro hcon
    have := hcon.2
    simp only at this
    omega
  have hk := pressLoopTick_keep (requestPress s index now) t index h1 h2x (by omega)
    ⟨true, now⟩ a hnd
  exact ⟨hk.1, hk.2.trans b⟩

/-- Claim C8 witness: on the example configuration (2 channels, 200 ms), a
pulse on channel 2 at t=0 is still ON at the tick at t=199, OFF at t=200; a
request while disabled and a request on channel 3 (outside the 2 active
channels) are both rejected. -/
theorem C8_pulse_witness :
    getRelayOn (pressLoopTick (requestPress exampleBtnState 2 0) 199) 2 = true ∧
    getRelayOn (pressLoopTick (requestPress exampleBtnState 2 0) 200) 2 = false ∧
    requestPress { exampleBtnState with systemEnabled := false } 2 0 =
      { exampleBtnState with systemEnabled := false } ∧
    requestPress exampleBtnState 3 0 = exampleBtnState := by
  refine ⟨?_, ?_, ?_, ?_⟩
  · exact ((C8_pulse_scheduler (requestPress exampleBtnState 2 0) 1 199 2 ⟨true, 0⟩ 2
      (by decide)).2.2.2.2 (by decide) (by decide) (by decide) (by decide)).2.trans (by decide)
  · exact ((C8_pulse_scheduler (requestPress exampleBtnState 2 0) 1 200 2 ⟨true, 0⟩ 2
      (by decide)).2.2.2.1 (by decide) (by decide) (by decide) (by decide) (by decide)).2
  · exact (C8_pulse_scheduler { exampleBtnState with systemEnabled := false } 2 0 1
      ⟨false, 0⟩ 2 (by decide)).1 (Or.inl rfl)
  · exact (C8_pulse_scheduler exampleBtnState 3 0 1 ⟨false, 0⟩ 2 (by decide)).1
      (Or.inr (Or.inr (by decide)))

/-- Claim C10 witness: re-requesting channel 2 at t=150 while its pulse from
t=0 is still active restamps the job to start 150 and keeps the relay ON at
the tick at t=340 (190 ms into the extended pulse). -/
theorem C10_retrigger_witness :
    getPressJob (requestPress (requestPress exampleBtnState 2 0) 2 150) 2 =
      some ⟨true, 150⟩ ∧
    getRelayOn (pressLoopTick (requestPress (requestPress exampleBtnState 2 0) 2 150)
      340) 2 = true := by
  have h := C10_retrigger (requestPress exampleBtnState 2 0) 2 150 340 ⟨true, 0⟩
    (by decide) (by decide) (by decide) (by decide) (by decide) (by decide)
  exact ⟨h.1, (h.2.2.2 (by decide)).2⟩

lemma applyEnable_fields (s : HumState) (p : Option Bool) :
    (applyEnable s p).mqttConnected = s.mqttConnected ∧
    (applyEnable s p).currentHumidity = s.currentHumidity ∧
    (applyEnable s p).humiditySamplesSinceMqttConnect =
      s.humiditySamplesSinceMqttConnect := by
  unfold applyEnable
  dsimp only
  split_ifs <;> exact ⟨rfl, rfl, rfl⟩

lemma applyEnable_relay_on (s : HumState) (p : Option Bool)
    (h : (applyEnable s p).relayOn = true) :
    s.relayOn = true ∧ (applyEnable s p).systemEnabled = true := by
  unfold applyEnable at h ⊢
  dsimp only at h ⊢
  split_ifs at h ⊢ <;> simp_all

lemma applyEnable_disabled_off (s : HumState) (p : Option Bool)
    (h : (applyEnable s p).systemEnabled = false) :
    (applyEnable s p).relayOn = false := by
  unfold applyEnable at h ⊢
  dsimp only at h ⊢
  split_ifs at h ⊢ <;> simp_all

lemma applySetpoint_fields (s : HumState) (p : Option (Option ℚ)) :
    (applySetpoint s p).mqttConnected = s.mqttConnected ∧
    (applySetpoint s p).systemEnabled = s.systemEnabled ∧
    (applySetpoint s p).relayOn = s.relayOn ∧
    (applySetpoint s p).currentHumidity = s.currentHumidity ∧
    (applySetpoint s p).humiditySamplesSinceMqttConnect =
      s.humiditySamplesSinceMqttConnect := by
  unfold applySetpoint
  rcases p with _ | v
  · exact ⟨rfl, rfl, rfl, rfl, rfl⟩
  · dsimp only
    rcases clampSetpoint v with _ | q
    · exact ⟨rfl, rfl, rfl, rfl, rfl⟩
    · dsimp only
      split_ifs <;> exact ⟨rfl, rfl, rfl, rfl, rfl⟩

lemma applyHumidity_fields (s : HumState) (p : Option (Option ℚ)) (now : ℕ) :
    (applyHumidity s p now).mqttConnected = s.mqttConnected ∧
    (applyHumidity s p now).systemEnabled = s.systemEnabled ∧
    (applyHumidity s p now).relayOn = s.relayOn := by
  unfold applyHumidity
  dsimp only
  split_ifs <;> rcases p with _ | v <;> exact ⟨rfl, rfl, rfl⟩

lemma applyHumidity_humidity (s : HumState) (p : Option (Option ℚ)) (now : ℕ) :
    (applyHumidity s p now).currentHumidity = s.currentHumidity ∨
    (∃ v, p = some v ∧ (applyHumidity s p now).currentHumidity = v) := by
  unfold applyHumidity
  dsimp only
  split_ifs <;> rcases p with _ | v <;>
    first
      | exact Or.inl rfl
      | exact Or.inr ⟨v, rfl, rfl⟩

lemma mqttConnectIfNeeded_fields (s : HumState) (now : ℕ) (ok : Bool) :
    (mqttConnectIfNeeded s now ok).relayOn = s.relayOn ∧
    (mqttConnectIfNeeded s now ok).systemEnabled = s.systemEnabled ∧
    (mqttConnectIfNeeded s now ok).currentHumidity = s.currentHumidity := by
  unfold mqttConnectIfNeeded
  split_ifs <;> exact ⟨rfl, rfl, rfl⟩

lemma mqttConnectIfNeeded_connected (s : HumState) (now : ℕ) (ok : Bool)
    (h : (mqttConnectIfNeeded s now ok).mqttConnected = true) :
    s.mqttConnected = true ∨ ok = true := by
  unfold mqttConnectIfNeeded at h
  split_ifs at h <;> simp_all

lemma controlLoopTick_fields (s : HumState) :
    (controlLoopTick s).mqttConnected = s.mqttConnected ∧
    (controlLoopTick s).systemEnabled = s.systemEnabled ∧
    (controlLoopTick s).currentHumidity = s.currentHumidity ∧
    (controlLoopTick s).humiditySamplesSinceMqttConnect =
      s.humiditySamplesSinceMqttConnect := by
  unfold controlLoopTick
  rcases hm : s.currentHumidity with _ | hum <;> dsimp only <;>
    split_ifs <;>
      first
        | exact ⟨rfl, rfl, rfl, rfl⟩
        | exact ⟨rfl, rfl, hm, rfl⟩

lemma tick_failsafe_off (s : HumState)
    (h : s.mqttConnected = false ∨ s.systemEnabled = false ∨ s.currentHumidity = none) :
    (controlLoopTick s).relayOn = false := by
  unfold controlLoopTick
  rcases h with h | h | h
  · rw [if_pos (by simp [h])]
    split_ifs <;> simp_all
  · by_cases hc : s.mqttConnected = true
    · rw [if_neg (by simp [hc]), if_pos (by simp [h])]
      split_ifs <;> simp_all
    · rw [if_pos (by simpa using hc)]
      split_ifs <;> simp_all
  · by_cases hc : s.mqttConnected = true
    · by_cases hen : s.systemEnabled = true
      · rw [if_neg (by simp [hc]), if_neg (by simp [hen]), h]
        split_ifs <;> simp_all
      · rw [if_neg (by simp [hc]), if_pos (by simpa using hen)]
        split_ifs <;> simp_all
    · rw [if_pos (by simpa using hc)]
      split_ifs <;> simp_all

lemma tick_on_inv (s : HumState) (h : (controlLoopTick s).relayOn = true) :
    s.mqttConnected = true ∧ s.systemEnabled = true ∧ s.currentHumidity ≠ none := by
  by_cases hc : s.mqttConnected = true
  · by_cases hen : s.systemEnabled = true
    · rcases hm : s.currentHumidity with _ | hum
      · exact absurd h (by rw [tick_failsafe_off s (Or.inr (Or.inr hm))]; simp)
      · exact ⟨hc, hen, by simp⟩
    · exact absurd h (by rw [tick_failsafe_off s (Or.inr (Or.inl (by simpa using hen)))]; simp)
  · exact absurd h (by rw [tick_failsafe_off s (Or.inl (by simpa using hc))]; simp)

lemma tick_gate (s : HumState) (h0 : s.relayOn = false)
    (h1 : (controlLoopTick s).relayOn = true) :
    2 ≤ s.humiditySamplesSinceMqttConnect := by
  obtain ⟨hc, hen, hm⟩ := tick_on_inv s h1
  rcases hv : s.currentHumidity with _ | hum
  · exact absurd hv hm
  · unfold controlLoopTick at h1
    rw [if_neg (by simp [hc]), if_neg (by simp [hen]), hv] at h1
    dsimp only at h1
    split_ifs at h1 with ha hb hcc <;>
      first
        | omega
        | simp_all

lemma webControl_fields (s : HumState) (en : Option Bool) (sp : Option (Option ℚ)) :
    (webControl s en sp).mqttConnected = s.mqttConnected ∧
    (webControl s en sp).currentHumidity = s.currentHumidity ∧
    (webControl s en sp).humiditySamplesSinceMqttConnect =
      s.humiditySamplesSinceMqttConnect := by
  unfold webControl
  dsimp only
  rcases sp with _ | v
  · split_ifs <;> exact ⟨rfl, rfl, rfl⟩
  · rcases v with _ | x
    · split_ifs <;> exact ⟨rfl, rfl, rfl⟩
    · dsimp only
      rcases clampSetpoint (some x) with _ | q
      · split_ifs <;> exact ⟨rfl, rfl, rfl⟩
      · dsimp only
        split_ifs <;> exact ⟨rfl, rfl, rfl⟩

lemma webControl_relay_on (s : HumState) (en : Option Bool) (sp : Option (Option ℚ))
    (h : (webControl s en sp).relayOn = true) :
    s.relayOn = true ∧ (webControl s en sp).systemEnabled = true := by
  unfold webControl at h ⊢
  dsimp only at h ⊢
  rcases sp with _ | v
  · split_ifs at h ⊢ <;> simp_all
  · rcases v with _ | x
    · split_ifs at h ⊢ <;> simp_all
    · dsimp only at h ⊢
      revert h
      rcases clampSetpoint (some x) with _ | q <;> dsimp only <;> intro h <;>
        split_ifs at h ⊢ <;> simp_all

lemma webControl_disabled_off (s : HumState) (en : Option Bool) (sp : Option (Option ℚ))
    (h : (webControl s en sp).systemEnabled = false) :
    (webControl s en sp).relayOn = false := by
  unfold webControl at h ⊢
  dsimp only at h ⊢
  rcases sp with _ | v
  · split_ifs at h ⊢ <;> simp_all
  · rcases v with _ | x
    · split_ifs at h ⊢ <;> simp_all
    · dsimp only at h ⊢
      revert h
      rcases clampSetpoint (some x) with _ | q <;> dsimp only <;> intro h <;>
        split_ifs at h ⊢ <;> simp_all

lemma relaySafe_step (s : HumState) (e : HumEvent)
    (hs : relaySafe s) (hn : ¬isNanHumidityMsg e) :
    relaySafe (stepEvent s e) := by
  cases e with
  | wifiDrop =>
      intro h
      simp [stepEvent, wifiDropCleanup] at h
  | mqttDrop =>
      intro h
      simp [stepEvent, mqttDropCleanup] at h
  | mqttAttempt now ok =>
      simp only [stepEvent]
      intro h
      obtain ⟨f1, f2, f3⟩ := mqttConnectIfNeeded_fields s now ok
      rw [f1] at h
      obtain ⟨hc, he2, hh⟩ := hs h
      have heq : mqttConnectIfNeeded s now ok = s := by
        unfold mqttConnectIfNeeded
        rw [if_pos hc]
      rw [heq]
      exact ⟨hc, he2, hh⟩
  | msgEnable p =>
      simp only [stepEvent]
      split_ifs with hcon
      · intro h
        obtain ⟨hr, hen⟩ := applyEnable_relay_on s p h
        obtain ⟨f1, f2, f3⟩ := applyEnable_fields s p
        exact ⟨f1.trans (hs hr).1, hen, by rw [f2]; exact (hs hr).2.2⟩
      · exact hs
  | msgSetpoint p =>
      simp only [stepEvent]
      split_ifs with hcon
      · intro h
        obtain ⟨f1, f2, f3, f4, f5⟩ := applySetpoint_fields s p
        rw [f3] at h
        obtain ⟨a, b, c⟩ := hs h
        exact ⟨f1.trans a, f2.trans b, by rw [f4]; exact c⟩
      · exact hs
  | msgHumidity p now =>
      simp only [stepEvent]
      split_ifs with hcon
      · intro h
        obtain ⟨f1, f2, f3⟩ := applyHumidity_fields s p now
        rw [f3] at h
        obtain ⟨a, b, c⟩ := hs h
        refine ⟨f1.trans a, f2.trans b, ?_⟩
        rcases applyHumidity_humidity s p now with hh | ⟨v, hp, hh⟩
        · rw [hh]
          exact c
        · rw [hh]
          rcases v with _ | q
          · exfalso
            apply hn
            rw [hp]
            exact trivial
          · simp
      · exact hs
  | webCtl en sp =>
      intro h
      simp only [stepEvent] at h ⊢
      obtain ⟨hr, hen⟩ := webControl_relay_on s en sp h
      obtain ⟨f1, f2, f3⟩ := webControl_fields s en sp
      exact ⟨f1.trans (hs hr).1, hen, by rw [f2]; exact (hs hr).2.2⟩
  | tick =>
      intro h
      simp only [stepEvent] at h ⊢
      obtain ⟨a, b, c⟩ := tick_on_inv s h
      obtain ⟨f1, f2, f3, f4⟩ := controlLoopTick_fields s
      exact ⟨f1.trans a, f2.trans b, by rw [f3]; exact c⟩

lemma relaySafe_init : relaySafe initState := by
  intro h
  simp [initState] at h

lemma relaySafe_run (es : List HumEvent) (s : HumState) (hs : relaySafe s)
    (hn : ∀ e ∈ es, ¬isNanHumidityMsg e) : relaySafe (runEvents s es) := by
  induction es generalizing s with
  | nil => exact hs
  | cons e es ih =>
      exact ih (stepEvent s e) (relaySafe_step s e hs (hn e (List.mem_cons_self e es)))
        (fun e2 h2 => hn e2 (List.mem_cons_of_mem e h2))

/-- Claim C1 (amended): at every control tick any fail-safe condition
(disconnected, disabled, or unknown humidity) commands the relay OFF, and a
tick can leave the relay ON only in the fully connected, enabled, known-data
state; link-loss and broker-loss edges force the relay OFF immediately, as
does any enable-message or web request that leaves the system disabled; and
along every event trace from boot containing no NaN humidity payload the
relay is ON only in the fully connected, enabled, known-data state.  (A
humidity payload parsing to NaN - e.g. the string "nan" - is stored
unchecked and leaves the relay ON until the next tick, so the claim's
"immediately after any transition out of known-data" fails there; see the
counterexample.) -/
theorem C1_failsafe_amended (s : HumState) (p : Option Bool) (en : Option Bool)
    (sp : Option (Option ℚ)) (es : List HumEvent) :
    ((s.mqttConnected = false ∨ s.systemEnabled = false ∨ s.currentHumidity = none) →
        (controlLoopTick s).relayOn = false) ∧
    ((controlLoopTick s).relayOn = true →
        s.mqttConnected = true ∧ s.systemEnabled = true ∧ s.currentHumidity ≠ none) ∧
    (stepEvent s HumEvent.wifiDrop).relayOn = false ∧
    (stepEvent s HumEvent.mqttDrop).relayOn = false ∧
    ((applyEnable s p).systemEnabled = false → (applyEnable s p).relayOn = false) ∧
    ((webControl s en sp).systemEnabled = false → (webControl s en sp).relayOn = false) ∧
    ((∀ e ∈ es, ¬isNanHumidityMsg e) → relaySafe (runEvents initState es)) := by
  exact ⟨tick_failsafe_off s, tick_on_inv s, rfl, rfl, applyEnable_disabled_off s p,
    webControl_disabled_off s en sp, relaySafe_run es initState relaySafe_init⟩

/-- Claim C1 counterexample: from boot, connect, two accepted samples of 42
(5 minutes apart, passing the throttle), a tick that turns the relay ON, and
then a humidity payload parsing to NaN: the sample is stored, the state
leaves known-data, and the relay is still ON - not OFF immediately after the
transition. -/
theorem C1_counterexample :
    (runEvents initState [HumEvent.mqttAttempt 1000 true,
        HumEvent.msgHumidity (some (some 42)) 2000,
        HumEvent.msgHumidity (some (some 42)) 302001, HumEvent.tick,
        HumEvent.msgHumidity (some none) 602002]).relayOn = true ∧
    (runEvents initState [HumEvent.mqttAttempt 1000 true,
        HumEvent.msgHumidity (some (some 42)) 2000,
        HumEvent.msgHumidity (some (some 42)) 302001, HumEvent.tick,
        HumEvent.msgHumidity (some none) 602002]).currentHumidity = none := by
  constructor <;>
    norm_num [runEvents, stepEvent, applyHumidity, mqttConnectIfNeeded, controlLoopTick,
      initState, lowThreshold, highThreshold, MQTT_RECONNECT_MIN_MS,
      DEFAULT_HUMIDITY_MIN_INTERVAL_MS, List.foldl]

/-- Claim C1 witness: the tick fail-safe and the NaN-free trace invariant at
concrete inputs. -/
theorem C1_witness :
    (controlLoopTick initState).relayOn = false ∧
    relaySafe (runEvents initState [HumEvent.mqttAttempt 1000 true,
        HumEvent.msgHumidity (some (some 42)) 2000, HumEvent.tick]) := by
  constructor
  · exact (C1_failsafe_amended initState none none none []).1 (Or.inl rfl)
  · exact (C1_failsafe_amended initState none none none [HumEvent.mqttAttempt 1000 true,
      HumEvent.msgHumidity (some (some 42)) 2000, HumEvent.tick]).2.2.2.2.2.2 (by decide)

/-- Claim C2 (amended): the sample counter is reset to 0 on every successful
broker (re)connection, incremented once per received humidity-topic message
while connected (throttled and unparseable messages included), saturating at
255; no other event increases it (link/broker loss zero it); and the
actuator never transitions OFF to ON with fewer than 2 received messages
since the most recent connection.  (The counter counts received messages,
not accepted samples, so the gate can reach "trusted" partly via malformed
or throttled messages; see the counterexample.) -/
theorem C2_freshness_amended (s : HumState) (now : ℕ) (p : Option (Option ℚ))
    (pb : Option Bool) (sp : Option (Option ℚ)) (en : Option Bool) :
    (s.mqttConnected = false → s.mqttHostConfigured = true →
        s.mqttBackoffMs ≤ now - s.lastMqttAttemptMs →
        (mqttConnectIfNeeded s now true).humiditySamplesSinceMqttConnect = 0 ∧
        (mqttConnectIfNeeded s now true).mqttConnected = true) ∧
    (s.mqttConnected = true →
        (stepEvent s (HumEvent.msgHumidity p now)).humiditySamplesSinceMqttConnect =
          (if s.humiditySamplesSinceMqttConnect < 255 then
            s.humiditySamplesSinceMqttConnect + 1
          else s.humiditySamplesSinceMqttConnect)) ∧
    (stepEvent s HumEvent.wifiDrop).humiditySamplesSinceMqttConnect = 0 ∧
    (stepEvent s HumEvent.mqttDrop).humiditySamplesSinceMqttConnect = 0 ∧
    (stepEvent s (HumEvent.msgEnable pb)).humiditySamplesSinceMqttConnect =
      s.humiditySamplesSinceMqttConnect ∧
    (stepEvent s (HumEvent.msgSetpoint sp)).humiditySamplesSinceMqttConnect =
      s.humiditySamplesSinceMqttConnect ∧
    (stepEvent s (HumEvent.webCtl en sp)).humiditySamplesSinceMqttConnect =
      s.humiditySamplesSinceMqttConnect ∧
    (stepEvent s HumEvent.tick).humiditySamplesSinceMqttConnect =
      s.humiditySamplesSinceMqttConnect ∧
    (stepEvent s (HumEvent.mqttAttempt now false)).humiditySamplesSinceMqttConnect =
      s.humiditySamplesSinceMqttConnect ∧
    (s.relayOn = false → (controlLoopTick s).relayOn = true →
        2 ≤ s.humiditySamplesSinceMqttConnect) := by
  refine ⟨?_, ?_, rfl, rfl, ?_, ?_, ?_, ?_, ?_, tick_gate s⟩
  · intro h1 h2 h3
    unfold mqttConnectIfNeeded
    rw [if_neg (by simp [h1]), if_neg (by simp [h2]), if_neg (by omega)]
    dsimp only
    rw [if_neg (by simp)]
    exact ⟨rfl, rfl⟩
  · intro hc
    simp only [stepEvent, if_pos hc]
    unfold applyHumidity
    dsimp only
    split_ifs <;> rcases p with _ | v <;> rfl
  · simp only [stepEvent]
    split_ifs with hc
    · exact (applyEnable_fields s pb).2.2
    · rfl
  · simp only [stepEvent]
    split_ifs with hc
    · exact (applySetpoint_fields s sp).2.2.2.2
    · rfl
  · simp only [stepEvent]
    exact (webControl_fields s en sp).2.2
  · simp only [stepEvent]
    exact (controlLoopTick_fields s).2.2.2
  · simp only [stepEvent]
    unfold mqttConnectIfNeeded
    split_ifs <;> first | rfl | simp_all

/-- Claim C2 counterexample: after a connect, one unparseable humidity
message (which accepts nothing: value still unknown, accept timestamp still
0) and one accepted sample of 42 bring the counter to 2, and the next tick
turns the relay OFF to ON - with only one accepted sample since the
connection, refuting the claim as stated. -/
theorem C2_counterexample :
    (runEvents initState [HumEvent.mqttAttempt 1000 true, HumEvent.msgHumidity none 2000,
        HumEvent.msgHumidity (some (some 42)) 3000]).relayOn = false ∧
    (runEvents initState [HumEvent.mqttAttempt 1000 true, HumEvent.msgHumidity none 2000,
        HumEvent.msgHumidity (some (some 42)) 3000]).humiditySamplesSinceMqttConnect = 2 ∧
    (controlLoopTick (runEvents initState [HumEvent.mqttAttempt 1000 true,
        HumEvent.msgHumidity none 2000,
        HumEvent.msgHumidity (some (some 42)) 3000])).relayOn = true ∧
    (runEvents initState [HumEvent.mqttAttempt 1000 true,
        HumEvent.msgHumidity none 2000]).currentHumidity = none ∧
    (runEvents initState [HumEvent.mqttAttempt 1000 true,
        HumEvent.msgHumidity none 2000]).lastHumidityAcceptMs = 0 := by
  refine ⟨?_, ?_, ?_, ?_, ?_⟩ <;>
    norm_num [runEvents, stepEvent, applyHumidity, mqttConnectIfNeeded, controlLoopTick,
      initState, lowThreshold, highThreshold, MQTT_RECONNECT_MIN_MS,
      DEFAULT_HUMIDITY_MIN_INTERVAL_MS, List.foldl]

/-- Claim C2 witness: the reset and increment clauses at concrete inputs. -/
theorem C2_witness :
    (mqttConnectIfNeeded initState 1000 true).humiditySamplesSinceMqttConnect = 0 ∧
    (stepEvent { initState with mqttConnected := true }
      (HumEvent.msgHumidity none 5)).humiditySamplesSinceMqttConnect = 1 := by
  constructor
  · exact ((C2_freshness_amended initState 1000 none none none none).1 rfl rfl
      (by decide)).1
  · have h := (C2_freshness_amended { initState with mqttConnected := true } 5 none
      none none none).2.1 rfl
    simpa [initState] using h
